import Mathlib

/-!
Shallow embedding of the Calibration & Mapping Engine of `PyMataOSC_v4.py`.

Numbers carried by OSC messages and the mapping arithmetic are modelled over
`ℚ` (the source enables true division via `from __future__ import division`;
the spec treats the float computation as exact real arithmetic).  Python's
`int(...)` truncation toward zero is `pyInt`.  The serial client (`board`) is
assumed connected (`board is not None`), an external precondition of every
handler; an actuator write `board.analog_write(pin, v)` is modelled as the
pair `(pin, v)` appended to the handler's output list, in emission order.
-/

/-- Python `int(q)`: truncation toward zero of a rational. -/
def pyInt (q : ℚ) : ℚ :=
  if q < 0 then ((⌈q⌉ : ℤ) : ℚ) else ((⌊q⌋ : ℤ) : ℚ)

/-- The `c["pos"]` struct of a servo entry: `{home, max, abs_min, abs_max}`.  `home` and
`max` are mutated live by calibration CC messages (they hold `int(...)` results,
kept as `ℚ` so the record can be fed back into `map_value` as the source does). -/
structure Pos where
  home : ℚ
  max : ℚ
  abs_min : ℚ
  abs_max : ℚ
deriving DecidableEq, Repr

/-- One entry of `config["servo"]`. -/
structure Servo where
  note : ℚ
  pwm_pin : ℤ
  cc_home : ℚ
  cc_max : ℚ
  reverse_servo_direction : Bool
  reverse_home_direction : Bool
  reverse_max_direction : Bool
  pos : Pos
deriving DecidableEq, Repr

/-- The parts of `config["stepper"]` the handlers read. -/
structure Stepper where
  cc_speed : ℚ
  min_speed : ℚ
  max_speed : ℚ
deriving DecidableEq, Repr

/-- The parts of the configuration tree the handlers read or mutate. -/
structure Config where
  midi_min : ℚ
  midi_max : ℚ
  servo : List Servo
  stepper : Stepper
deriving DecidableEq, Repr

/-- The source function `map_value(x, lower, upper, min, max)`:
`min + ((x - lower) / (upper - lower)) * (max - min)`. -/
def map_value (x lower upper min max : ℚ) : ℚ :=
  min + ((x - lower) / (upper - lower)) * (max - min)

/-- Body of the `note_handler` loop for one matching servo entry: the mapped
(and optionally direction-reversed) position, before the final `int(...)`. -/
def noteServoPos (mm mM : ℚ) (c : Servo) (velocity : ℚ) : ℚ :=
  let servo_pos := map_value velocity mm mM c.pos.home c.pos.max
  if c.reverse_servo_direction = true then
    map_value servo_pos c.pos.abs_min c.pos.abs_max c.pos.abs_max c.pos.abs_min
  else
    servo_pos

/-- The `for c in config["servo"]` loop of `note_handler`: one actuator write
per entry whose `note` matches, in sequence order (the source has no early
exit). -/
def noteLoop (mm mM note velocity : ℚ) : List Servo → List (ℤ × ℚ)
  | [] => []
  | c :: rest =>
    if note = c.note then
      (c.pwm_pin, pyInt (noteServoPos mm mM c velocity)) :: noteLoop mm mM note velocity rest
    else
      noteLoop mm mM note velocity rest

/-- The `note_handler`: reads the configuration, never mutates it, and returns the
emitted actuator writes. -/
def note_handler (cfg : Config) (chan note velocity : ℚ) : Config × List (ℤ × ℚ) :=
  (cfg, noteLoop cfg.midi_min cfg.midi_max note velocity cfg.servo)

/-- One iteration of the `cc_handler` servo loop.  Returns the (possibly
mutated) servo entry, the (possibly overwritten) handler-local `ccVal`, and
the writes emitted by this iteration. -/
def ccServoStep (mm mM ccNum : ℚ) (ccVal : ℚ) (c : Servo) : Servo × ℚ × List (ℤ × ℚ) :=
  if ccNum = c.cc_home then
    let ccVal := if c.reverse_home_direction = true then map_value ccVal mm mM mM mm else ccVal
    let servo_pos := map_value ccVal mm mM c.pos.abs_min c.pos.abs_max
    let c' := { c with pos := { c.pos with home := pyInt servo_pos } }
    let servo_pos :=
      if c.reverse_servo_direction = true then
        map_value servo_pos c.pos.abs_min c.pos.abs_max c.pos.abs_max c.pos.abs_min
      else servo_pos
    (c', ccVal, [(c.pwm_pin, pyInt servo_pos)])
  else if ccNum = c.cc_max then
    let ccVal := if c.reverse_max_direction = true then map_value ccVal mm mM mM mm else ccVal
    let servo_pos := map_value ccVal mm mM c.pos.home c.pos.abs_max
    let c' := { c with pos := { c.pos with max := pyInt servo_pos } }
    let servo_pos :=
      if c.reverse_servo_direction = true then
        map_value servo_pos c.pos.abs_min c.pos.abs_max c.pos.abs_max c.pos.abs_min
      else servo_pos
    (c', ccVal, [(c.pwm_pin, pyInt servo_pos)])
  else
    (c, ccVal, [])

/-- The `for c in config["servo"]` loop of `cc_handler`, threading the mutated
servo list, the handler-local `ccVal`, and the emitted writes. -/
def ccLoop (mm mM ccNum : ℚ) (ccVal : ℚ) : List Servo → List Servo × ℚ × List (ℤ × ℚ)
  | [] => ([], ccVal, [])
  | c :: rest =>
    let s := ccServoStep mm mM ccNum ccVal c
    let r := ccLoop mm mM ccNum s.2.1 rest
    (s.1 :: r.1, r.2.1, s.2.2 ++ r.2.2)

/-- The `cc_handler`: returns the mutated configuration, the servo actuator
writes, and `some f` when the stepper branch fired with frequency `int(f)`
(the branch runs after the servo loop, so it reads the final `ccVal`). -/
def cc_handler (cfg : Config) (chan ccNum ccVal : ℚ) : Config × List (ℤ × ℚ) × Option ℚ :=
  let r := ccLoop cfg.midi_min cfg.midi_max ccNum ccVal cfg.servo
  let stepper_speed : Option ℚ :=
    if ccNum = cfg.stepper.cc_speed then
      some (pyInt (map_value r.2.1 cfg.midi_min cfg.midi_max cfg.stepper.min_speed
        cfg.stepper.max_speed))
    else none
  ({ cfg with servo := r.1 }, r.2.2, stepper_speed)

/-- One decimal digit of Python's `int(str)` parsing. -/
def charDigit (c : Char) : Option ℕ :=
  if '0' ≤ c ∧ c ≤ '9' then some (c.toNat - 48) else none

/-- Decimal-numeral parsing of a character list: `some n` when every character
is a digit (and the list is nonempty), `none` otherwise. -/
def digitsToNat : List Char → Option ℕ
  | [] => none
  | [c] => charDigit c
  | c :: rest =>
    match charDigit c, digitsToNat rest with
    | some d, some n => some (d * 10 ^ rest.length + n)
    | _, _ => none

/-- Python `int(s)` on a string: `some n` when `s` is an unsigned decimal
numeral, `none` modelling the `ValueError` raised otherwise (e.g. when `s`
contains a dot).  Sign prefixes and surrounding whitespace, which Python also
accepts, never occur in the sliced IP-address strings this program parses. -/
def pyIntOfStr (s : String) : Option ℕ :=
  digitsToNat s.toList

/-- The function `getIPAddress2`: Python takes `int(address[-3:])`, the last three
*characters* of the address string (a `ValueError` escapes when those three
characters are not a decimal numeral), adds 1 to that number when it is even
and subtracts 1 when it is odd, and prepends the literal `192.168.1.`. -/
def getIPAddress2 (address : String) : Option String :=
  match pyIntOfStr (address.takeRight 3) with
  | none => none
  | some endNum =>
    let endNumNew : ℤ := if endNum % 2 = 0 then (endNum : ℤ) + 1 else (endNum : ℤ) - 1
    some ("192.168.1." ++ toString endNumNew)

/-- The `__main__` classification: `address2 = getIPAddress2(address1)`, then
the address whose last three characters form an even number is WLAN, the other
LAN.  Returns `some (WLAN, LAN)`. -/
def selectAddresses (address1 : String) : Option (String × String) :=
  match getIPAddress2 address1 with
  | none => none
  | some address2 =>
    match pyIntOfStr (address1.takeRight 3) with
    | none => none
    | some n => if n % 2 = 0 then some (address1, address2) else some (address2, address1)

/-- The servo of §8 of the spec: note 60, pin 9, calibration `home 10, max
100` inside absolute bounds `0..200`, no direction reversal; its calibration
CC numbers are 1 (home) and 2 (max). -/
def servoStd : Servo :=
  ⟨60, 9, 1, 2, false, false, false, ⟨10, 100, 0, 200⟩⟩

/-- A second servo sharing note 60 on pin 10 (calibration `home 20, max 80`,
CC numbers 3 and 4). -/
def servoStd2 : Servo :=
  ⟨60, 10, 3, 4, false, false, false, ⟨20, 80, 0, 200⟩⟩

/-- Variant of `servoStd` with `reverse_servo_direction` set. -/
def servoRev : Servo :=
  ⟨60, 9, 1, 2, true, false, false, ⟨10, 100, 0, 200⟩⟩

/-- A stepper whose speed CC number (99) matches none of the test messages. -/
def stepperStd : Stepper := ⟨99, 5, 50⟩

/-- Configuration with the single servo `servoStd`, MIDI range 0–127. -/
def cfgOne : Config := ⟨0, 127, [servoStd], stepperStd⟩

/-- Configuration with two servos sharing note 60, MIDI range 0–127. -/
def cfgTwo : Config := ⟨0, 127, [servoStd, servoStd2], stepperStd⟩

/-- Configuration with the single reversed servo `servoRev`. -/
def cfgRev : Config := ⟨0, 127, [servoRev], stepperStd⟩

/-- A servo whose home-calibration CC is 7 with `reverse_home_direction` set:
its matching CC message overwrites the handler-local `ccVal`. -/
def servoInvert : Servo :=
  ⟨60, 9, 7, 2, false, true, false, ⟨10, 100, 0, 200⟩⟩

/-- A servo also home-calibrated by CC 7, without any reversal flag. -/
def servoAfter : Servo :=
  ⟨61, 10, 7, 4, false, false, false, ⟨20, 80, 0, 100⟩⟩

/-- A stepper whose speed CC number is also 7. -/
def stepperSeven : Stepper := ⟨7, 5, 50⟩

/-- Claim C1: `map_value` is the unclamped linear interpolation
`lowerOut + ((x - lowerIn) / (upperIn - lowerIn)) * (upperOut - lowerOut)`,
and for `a ≠ b` it maps the input endpoints to the output endpoints exactly:
`map_value a a b c d = c` and `map_value b a b c d = d`. -/
theorem map_value_linear_endpoints (x a b c d : ℚ) (h : a ≠ b) :
    map_value x a b c d = c + ((x - a) / (b - a)) * (d - c) ∧
    map_value a a b c d = c ∧ map_value b a b c d = d := by
  have hba : b - a ≠ 0 := sub_ne_zero.mpr (Ne.symm h)
  refine ⟨rfl, ?_, ?_⟩
  · simp [map_value]
  · simp [map_value, div_self hba]

/-- Witness for C1 at `x = 3, a = 0, b = 1, c = 5, d = 7`. -/
theorem map_value_linear_endpoints_witness :
    (0 : ℚ) ≠ 1 ∧
    (map_value 3 0 1 5 7 = 5 + ((3 - 0) / (1 - 0)) * (7 - 5) ∧
     map_value 0 0 1 5 7 = 5 ∧ map_value 1 0 1 5 7 = 7) :=
  ⟨by norm_num, map_value_linear_endpoints 3 0 1 5 7 (by norm_num)⟩

/-- Claim C8: `map_value` is affine-invertible over the rationals: for `a ≠ b` and
`c ≠ d`, `map_value (map_value x a b c d) c d a b = x`. -/
theorem map_value_invertible (x a b c d : ℚ) (hab : a ≠ b) (hcd : c ≠ d) :
    map_value (map_value x a b c d) c d a b = x := by
  have hba : b - a ≠ 0 := sub_ne_zero.mpr (Ne.symm hab)
  have hdc : d - c ≠ 0 := sub_ne_zero.mpr (Ne.symm hcd)
  unfold map_value
  field_simp
  ring

/-- Witness for C8 at `x = 42, a = 0, b = 127, c = 10, d = 200`. -/
theorem map_value_invertible_witness :
    (0 : ℚ) ≠ 127 ∧ (10 : ℚ) ≠ 200 ∧
    map_value (map_value 42 0 127 10 200) 10 200 0 127 = 42 :=
  ⟨by norm_num, by norm_num, map_value_invertible 42 0 127 10 200 (by norm_num) (by norm_num)⟩

/-- Helper: the `note_handler` loop emits a write exactly when some entry of
the servo list has a matching note. -/
theorem noteLoop_ne_nil_iff (mm mM note velocity : ℚ) (l : List Servo) :
    noteLoop mm mM note velocity l ≠ [] ↔ ∃ c ∈ l, note = c.note := by
  induction l with
  | nil => simp [noteLoop]
  | cons c rest ih =>
    by_cases h : note = c.note
    · simp [noteLoop, h]
    · simp [noteLoop, h, ih]

/-- Helper: the `note_handler` loop is the in-order map over all matching
entries of the servo list. -/
theorem noteLoop_eq_filter_map (mm mM note velocity : ℚ) (l : List Servo) :
    noteLoop mm mM note velocity l =
      (l.filter fun c => decide (note = c.note)).map
        fun c => (c.pwm_pin, pyInt (noteServoPos mm mM c velocity)) := by
  induction l with
  | nil => simp [noteLoop]
  | cons c rest ih =>
    by_cases h : note = c.note
    · subst h
      simp [noteLoop, List.filter_cons, ih]
    · simp [noteLoop, List.filter_cons, h, ih]

/-- Claim C2 (counterexample): with two servo entries sharing note 60 (pins 9
and 10), the note handler emits TWO actuator writes, one per matching entry —
not exactly one write for the first match only.  The source loop has no early
exit. -/
theorem note_handler_two_matches_cex :
    (note_handler cfgTwo 0 60 0).2 = [(9, 10), (10, 20)] := by
  norm_num [note_handler, noteLoop, noteServoPos, map_value, pyInt, cfgTwo,
    servoStd, servoStd2]

/-- Claim C2 (amended): the note handler affects EVERY entry whose note
matches, in sequence order — one actuator write per matching servo, with no
early exit (the same all-matches behavior as the cc handler). -/
theorem note_handler_affects_all_matches (cfg : Config) (chan note velocity : ℚ) :
    (note_handler cfg chan note velocity).2 =
      (cfg.servo.filter fun c => decide (note = c.note)).map
        fun c => (c.pwm_pin, pyInt (noteServoPos cfg.midi_min cfg.midi_max c velocity)) :=
  noteLoop_eq_filter_map cfg.midi_min cfg.midi_max note velocity cfg.servo

/-- Claim C6: for `servoStd` (note 60, pin 9, home 10, max 100, no reversal)
with MIDI range 0–127, velocity 0 yields exactly the write `(9, 10)` and
velocity 127 exactly `(9, 100)`: the boundary velocities map exactly to
`int(home)` and `int(max)`, and the configuration is untouched. -/
theorem note_handler_boundary_exact :
    note_handler cfgOne 0 60 0 = (cfgOne, [(9, 10)]) ∧
    note_handler cfgOne 0 60 127 = (cfgOne, [(9, 100)]) := by
  constructor <;>
    norm_num [note_handler, noteLoop, noteServoPos, map_value, pyInt, cfgOne, servoStd]

/-- Claim C7: a note message matching no servo leaves the configuration
untouched and emits nothing; an actuator write is emitted iff some servo's
note matches (the serial client being connected is an external
precondition, as is the configured MIDI range being nondegenerate). -/
theorem note_handler_no_match_no_effect (cfg : Config) (chan note velocity : ℚ)
    (h : cfg.midi_min ≠ cfg.midi_max) :
    (note_handler cfg chan note velocity).1 = cfg ∧
    ((note_handler cfg chan note velocity).2 ≠ [] ↔ ∃ c ∈ cfg.servo, note = c.note) :=
  ⟨rfl, noteLoop_ne_nil_iff cfg.midi_min cfg.midi_max note velocity cfg.servo⟩

/-- Witness for C7: note 61 matches no servo of `cfgOne`. -/
theorem note_handler_no_match_no_effect_witness :
    cfgOne.midi_min ≠ cfgOne.midi_max ∧
    ((note_handler cfgOne 0 61 0).1 = cfgOne ∧
      ((note_handler cfgOne 0 61 0).2 ≠ [] ↔ ∃ c ∈ cfgOne.servo, (61 : ℚ) = c.note)) :=
  ⟨by norm_num [cfgOne], note_handler_no_match_no_effect cfgOne 0 61 0 (by norm_num [cfgOne])⟩

/-- Claim C4: a CC message on a servo's `ccHome` first optionally inverts the
value over the MIDI range (`reverse_home_direction`), then persists
`position.home = int(map_value(ccVal, midiMin, midiMax, absMin, absMax))`. -/
theorem cc_home_calibration (mm mM chan ccNum ccVal : ℚ) (c : Servo) (st : Stepper)
    (h : ccNum = c.cc_home) :
    ((cc_handler ⟨mm, mM, [c], st⟩ chan ccNum ccVal).1.servo.map fun s => s.pos.home) =
      [pyInt (map_value
        (if c.reverse_home_direction = true then map_value ccVal mm mM mM mm else ccVal)
        mm mM c.pos.abs_min c.pos.abs_max)] := by
  subst h
  simp [cc_handler, ccLoop, ccServoStep]

/-- Witness for C4, the concrete scenario of §8 of the spec: `absMin = 0`,
`absMax = 200`, initial `home = 10`, `reverse_home_direction = false`, CC
value 127 with `midiMax = 127` sets `position.home = 200`. -/
theorem cc_home_calibration_witness :
    (1 : ℚ) = servoStd.cc_home ∧
    ((cc_handler ⟨0, 127, [servoStd], stepperStd⟩ 0 1 127).1.servo.map
      fun s => s.pos.home) = [200] := by
  refine ⟨rfl, ?_⟩
  have h := cc_home_calibration 0 127 0 1 127 servoStd stepperStd rfl
  rw [h]
  norm_num [servoStd, map_value, pyInt]

/-- Claim C3 (counterexample): in `cfgRev` (`reverse_servo_direction` set,
`absMin = 0`, `absMax = 200`, MIDI 0–127), the CC-home message with value 1
persists `home = int(200/127) = 1` but emits the write
`(9, int(200 - 200/127)) = (9, 198)`, while the claim's formula — the
inversion applied to the PERSISTED value — predicts
`int(map_value(1, 0, 200, 200, 0)) = 199`: the code inverts the un-truncated
`servo_pos`, not the persisted integer. -/
theorem cc_handler_reverse_cex :
    (cc_handler cfgRev 0 1 1).2.1 = [(9, 198)] ∧
    ((cc_handler cfgRev 0 1 1).1.servo.map fun s => s.pos.home) = [1] ∧
    pyInt (map_value 1 0 200 200 0) = 199 ∧
    (cc_handler cfgRev 0 1 1).2.1 ≠ [((9 : ℤ), pyInt (map_value 1 0 200 200 0))] := by
  refine ⟨?_, ?_, ?_, ?_⟩ <;>
    norm_num [cc_handler, ccLoop, ccServoStep, map_value, pyInt, cfgRev, servoRev, stepperStd]

/-- Claim C3 (amended): with `reverse_servo_direction` set, the value persisted
into `position.home` (resp. `position.max`) is computed BEFORE the
absMin/absMax inversion, and the emitted actuator value is `int` of the
inversion applied to the UN-TRUNCATED mapped value `servo_pos` (not to the
already-truncated persisted value), so persisted and emitted values differ
whenever the inversion moves the value. -/
theorem cc_persist_precedes_inversion (mm mM ccNum v : ℚ) (c : Servo)
    (hrev : c.reverse_servo_direction = true) :
    (ccNum = c.cc_home →
      (ccServoStep mm mM ccNum v c).1.pos.home =
        pyInt (map_value
          (if c.reverse_home_direction = true then map_value v mm mM mM mm else v)
          mm mM c.pos.abs_min c.pos.abs_max) ∧
      (ccServoStep mm mM ccNum v c).2.2 =
        [(c.pwm_pin, pyInt (map_value
          (map_value
            (if c.reverse_home_direction = true then map_value v mm mM mM mm else v)
            mm mM c.pos.abs_min c.pos.abs_max)
          c.pos.abs_min c.pos.abs_max c.pos.abs_max c.pos.abs_min))]) ∧
    (ccNum ≠ c.cc_home → ccNum = c.cc_max →
      (ccServoStep mm mM ccNum v c).1.pos.max =
        pyInt (map_value
          (if c.reverse_max_direction = true then map_value v mm mM mM mm else v)
          mm mM c.pos.home c.pos.abs_max) ∧
      (ccServoStep mm mM ccNum v c).2.2 =
        [(c.pwm_pin, pyInt (map_value
          (map_value
            (if c.reverse_max_direction = true then map_value v mm mM mM mm else v)
            mm mM c.pos.home c.pos.abs_max)
          c.pos.abs_min c.pos.abs_max c.pos.abs_max c.pos.abs_min))]) := by
  constructor
  · intro h
    subst h
    simp [ccServoStep, hrev]
  · intro hne h
    subst h
    simp [ccServoStep, hne, hrev]

/-- Witness for C3 (amended) on `servoRev` with CC value 1: the persisted home
is 1 while the emitted write is `(9, 198)`. -/
theorem cc_persist_precedes_inversion_witness :
    servoRev.reverse_servo_direction = true ∧
    (ccServoStep 0 127 1 1 servoRev).1.pos.home = 1 ∧
    (ccServoStep 0 127 1 1 servoRev).2.2 = [(9, 198)] := by
  have h := (cc_persist_precedes_inversion 0 127 1 1 servoRev rfl).1 rfl
  refine ⟨rfl, h.1.trans ?_, h.2.trans ?_⟩ <;>
    norm_num [servoRev, map_value, pyInt]

/-- Claim C5 (counterexample): discovering `192.168.1.8` — a valid IPv4
address whose final octet has fewer than three digits — makes
`int(address[-3:])` parse `"1.8"` and raise `ValueError` (modelled as `none`),
instead of deriving the paired address `192.168.1.9` the claim predicts: the
code slices the last three characters, not the final octet. -/
theorem getIPAddress2_short_octet_cex :
    getIPAddress2 "192.168.1.8" = none ∧
    getIPAddress2 "192.168.1.8" ≠ some "192.168.1.9" := by
  refine ⟨rfl, ?_⟩
  rw [show getIPAddress2 "192.168.1.8" = none from rfl]
  simp

/-- Claim C5 (amended): for every discovered address whose last three
characters form a decimal numeral `n` (equivalently, whose final octet has
exactly three digits), the paired address is the literal prefix `192.168.1.`
followed by `n + 1` when `n` is even and `n - 1` when `n` is odd; and the
WLAN/LAN classification of the pair `192.168.1.100` / `192.168.1.101` is the
same whichever of the two is discovered first. -/
theorem getIPAddress2_parity_pairing (a : String) (n : ℕ)
    (h : pyIntOfStr (a.takeRight 3) = some n) :
    getIPAddress2 a =
      some ("192.168.1." ++ toString (if n % 2 = 0 then (n : ℤ) + 1 else (n : ℤ) - 1)) ∧
    selectAddresses "192.168.1.100" = some ("192.168.1.100", "192.168.1.101") ∧
    selectAddresses "192.168.1.101" = some ("192.168.1.100", "192.168.1.101") :=
  ⟨by simp [getIPAddress2, h], rfl, rfl⟩

/-- Witness for C5 (amended) at the discovered address `192.168.1.100`. -/
theorem getIPAddress2_parity_pairing_witness :
    pyIntOfStr ("192.168.1.100".takeRight 3) = some 100 ∧
    getIPAddress2 "192.168.1.100" = some "192.168.1.101" ∧
    selectAddresses "192.168.1.100" = some ("192.168.1.100", "192.168.1.101") ∧
    selectAddresses "192.168.1.101" = some ("192.168.1.100", "192.168.1.101") := by
  have h := getIPAddress2_parity_pairing "192.168.1.100" 100 rfl
  exact ⟨rfl, h.1.trans rfl, h.2.1, h.2.2⟩

/-- Helper: one `cc_handler` loop iteration is idempotent on the servo entry:
re-running the step on the already-updated entry with the same incoming
`ccVal` recomputes the same entry, the same outgoing `ccVal` and the same
write. -/
theorem ccServoStep_idem (mm mM ccNum v : ℚ) (c : Servo) :
    ccServoStep mm mM ccNum v (ccServoStep mm mM ccNum v c).1 =
      ccServoStep mm mM ccNum v c := by
  obtain ⟨n, p, ch, cm, rs, rh, rm, ⟨ph, pM, pmin, pmax⟩⟩ := c
  by_cases h1 : ccNum = ch
  · simp [ccServoStep, h1]
  · by_cases h2 : ccNum = cm
    · subst h2
      simp [ccServoStep, h1]
    · simp [ccServoStep, h1, h2]

/-- Helper: the whole `cc_handler` servo loop is idempotent when re-run with
the same incoming message on the list it produced. -/
theorem ccLoop_idem (mm mM ccNum : ℚ) (l : List Servo) : ∀ v : ℚ,
    ccLoop mm mM ccNum v (ccLoop mm mM ccNum v l).1 = ccLoop mm mM ccNum v l := by
  induction l with
  | nil => intro v; simp [ccLoop]
  | cons c rest ih =>
    intro v
    simp only [ccLoop]
    rw [ccServoStep_idem, ih]

/-- Claim C9: applying the same CC message twice in succession leaves the
configuration produced by the first application unchanged — in particular
every servo's persisted `position.home` and `position.max` are unchanged,
including in the `ccMax` branch whose input range reads the (possibly
mutated) `position.home` of the prior state: that branch never mutates
`home`, so the second application reads the same `home` and recomputes the
same `max`. -/
theorem cc_handler_idempotent (cfg : Config) (chan ccNum ccVal : ℚ)
    (h : cfg.midi_min ≠ cfg.midi_max) :
    (cc_handler (cc_handler cfg chan ccNum ccVal).1 chan ccNum ccVal).1 =
      (cc_handler cfg chan ccNum ccVal).1 := by
  obtain ⟨mm, mM, l, st⟩ := cfg
  simp only [cc_handler]
  rw [ccLoop_idem]

/-- Witness for C9: the home-calibration message `(0, 1, 64)` on `cfgOne`. -/
theorem cc_handler_idempotent_witness :
    cfgOne.midi_min ≠ cfgOne.midi_max ∧
    (cc_handler (cc_handler cfgOne 0 1 64).1 0 1 64).1 = (cc_handler cfgOne 0 1 64).1 :=
  ⟨by norm_num [cfgOne], cc_handler_idempotent cfgOne 0 1 64 (by norm_num [cfgOne])⟩

/-- Helper: a loop iteration whose fired branch (if any) carries no reversal
flag returns the incoming `ccVal` unchanged. -/
theorem ccServoStep_val_const (mm mM ccNum v : ℚ) (c : Servo)
    (hh : ccNum = c.cc_home → c.reverse_home_direction = false)
    (hm : ccNum ≠ c.cc_home → ccNum = c.cc_max → c.reverse_max_direction = false) :
    (ccServoStep mm mM ccNum v c).2.1 = v := by
  by_cases h1 : ccNum = c.cc_home
  · simp [ccServoStep, h1, hh h1]
  · by_cases h2 : ccNum = c.cc_max
    · simp only [ccServoStep]
      rw [if_neg h1, if_pos h2]
      simp [hm h1 h2]
    · simp [ccServoStep, h1, h2]

/-- Helper: when no entry of the servo list both matches the CC number and
carries the corresponding reversal flag, the loop returns the original
`ccVal`. -/
theorem ccLoop_val_const (mm mM ccNum : ℚ) (l : List Servo) : ∀ v : ℚ,
    (∀ c ∈ l, (ccNum = c.cc_home → c.reverse_home_direction = false) ∧
      (ccNum ≠ c.cc_home → ccNum = c.cc_max → c.reverse_max_direction = false)) →
    (ccLoop mm mM ccNum v l).2.1 = v := by
  induction l with
  | nil => intro v _; simp [ccLoop]
  | cons c rest ih =>
    intro v hl
    have hc := hl c (List.mem_cons_self c rest)
    simp only [ccLoop]
    rw [ccServoStep_val_const mm mM ccNum v c hc.1 hc.2]
    exact ih v fun c' hc' => hl c' (List.mem_cons_of_mem c hc')

/-- Helper: a matching home-calibration step with `reverse_home_direction`
set overwrites the outgoing `ccVal` with the MIDI-range inversion and
persists the home computed from that inverted value. -/
theorem ccServoStep_home_rev (mm mM ccNum v : ℚ) (c : Servo)
    (h : ccNum = c.cc_home) (hr : c.reverse_home_direction = true) :
    (ccServoStep mm mM ccNum v c).2.1 = map_value v mm mM mM mm ∧
    (ccServoStep mm mM ccNum v c).1.pos.home =
      pyInt (map_value (map_value v mm mM mM mm) mm mM c.pos.abs_min c.pos.abs_max) := by
  subst h
  simp [ccServoStep, hr]

/-- Helper: a matching home-calibration step without `reverse_home_direction`
passes the incoming `ccVal` through and persists the home computed from it. -/
theorem ccServoStep_home_norev (mm mM ccNum v : ℚ) (c : Servo)
    (h : ccNum = c.cc_home) (hr : c.reverse_home_direction = false) :
    (ccServoStep mm mM ccNum v c).2.1 = v ∧
    (ccServoStep mm mM ccNum v c).1.pos.home =
      pyInt (map_value v mm mM c.pos.abs_min c.pos.abs_max) := by
  subst h
  simp [ccServoStep, hr]

/-- Claim C10: within one `cc_handler` call, a matching servo with
`reverse_home_direction` set overwrites the handler-local `ccVal` itself, so
a later servo matching the same CC number and the stepper-speed branch both
compute from the already-inverted value; and when no matching servo carries a
reversal flag, every branch (in particular the stepper-speed branch) sees the
original message value. -/
theorem cc_handler_ccVal_overwrite (mm mM chan ccNum v : ℚ) (c1 c2 : Servo) (st : Stepper)
    (h1 : ccNum = c1.cc_home) (hr : c1.reverse_home_direction = true)
    (h2 : ccNum = c2.cc_home) (hnr : c2.reverse_home_direction = false)
    (hs : ccNum = st.cc_speed) :
    (((cc_handler ⟨mm, mM, [c1, c2], st⟩ chan ccNum v).1.servo.map fun s => s.pos.home) =
        [pyInt (map_value (map_value v mm mM mM mm) mm mM c1.pos.abs_min c1.pos.abs_max),
         pyInt (map_value (map_value v mm mM mM mm) mm mM c2.pos.abs_min c2.pos.abs_max)] ∧
      (cc_handler ⟨mm, mM, [c1, c2], st⟩ chan ccNum v).2.2 =
        some (pyInt (map_value (map_value v mm mM mM mm) mm mM st.min_speed st.max_speed))) ∧
    ∀ (servos : List Servo) (st2 : Stepper),
      (∀ c ∈ servos, (ccNum = c.cc_home → c.reverse_home_direction = false) ∧
        (ccNum ≠ c.cc_home → ccNum = c.cc_max → c.reverse_max_direction = false)) →
      ccNum = st2.cc_speed →
      (cc_handler ⟨mm, mM, servos, st2⟩ chan ccNum v).2.2 =
        some (pyInt (map_value v mm mM st2.min_speed st2.max_speed)) := by
  constructor
  · have A1 := ccServoStep_home_rev mm mM ccNum v c1 h1 hr
    have A2 := ccServoStep_home_norev mm mM ccNum (map_value v mm mM mM mm) c2 h2 hnr
    simp only [cc_handler, ccLoop, List.map]
    rw [if_pos hs, A1.1, A1.2, A2.1, A2.2]
    exact ⟨rfl, rfl⟩
  · intro servos st2 hall hs2
    simp only [cc_handler]
    rw [if_pos hs2, ccLoop_val_const mm mM ccNum servos v hall]

/-- Witness for C10: CC message `(0, 7, 127)` against `servoInvert` (reversing),
`servoAfter`, and `stepperSeven`.  The inverted value `map_value(127,0,127,127,0) = 0`
drives both homes to 0 and the stepper frequency to `int(map_value(0,0,127,5,50)) = 5`. -/
theorem cc_handler_ccVal_overwrite_witness :
    ((7 : ℚ) = servoInvert.cc_home ∧ servoInvert.reverse_home_direction = true ∧
      (7 : ℚ) = servoAfter.cc_home ∧ servoAfter.reverse_home_direction = false ∧
      (7 : ℚ) = stepperSeven.cc_speed) ∧
    ((cc_handler ⟨0, 127, [servoInvert, servoAfter], stepperSeven⟩ 0 7 127).1.servo.map
        fun s => s.pos.home) = [0, 0] ∧
    (cc_handler ⟨0, 127, [servoInvert, servoAfter], stepperSeven⟩ 0 7 127).2.2 = some 5 := by
  have h := (cc_handler_ccVal_overwrite 0 127 0 7 127 servoInvert servoAfter stepperSeven
    rfl rfl rfl rfl rfl).1
  refine ⟨⟨rfl, rfl, rfl, rfl, rfl⟩, h.1.trans ?_, h.2.trans ?_⟩ <;>
    norm_num [servoInvert, servoAfter, stepperSeven, map_value, pyInt]
